import Mathlib

/-!
Verification of the `log-server` repository (`src/server.py`), a diagnostic
HTTP echo/logging server.  The Python code is shallowly embedded:

* Python `bytes` values are `List Nat` (each element a byte value);
* Python `str` values at the byte/codepoint level are `List Nat`
  (Unicode codepoints); the transcript renderer works over Lean `String`;
* stateful handling (`LoggingHandler._respond`) is modelled as a pure
  function from the parsed request to the ordered list of side effects it
  performs (log append, then the response writes).

Every definition mirrors the corresponding function of `src/server.py`
(line references in the doc comments); Python standard-library calls the
code makes (`base64.b64encode`, `bytes.decode`, `str.lower`, dict
comprehensions, `http.server` method dispatch) are modelled from their
documented semantics.
-/

namespace LogSrv

set_option maxRecDepth 4096

/-! ### Shell quoting (`_shell_quote`, server.py lines 25-27)

`_shell_quote(value)` returns `"'" + value.replace("'", "'\\''") + "'"`.
Codepoint 39 is the single quote, 92 the backslash. -/

/-- Body of `str.replace("'", "'\\''")`: every single quote (39) becomes
the four codepoints quote-backslash-quote-quote. -/
def quoteInner : List Nat → List Nat
  | [] => []
  | c :: rest => (if c = 39 then [39, 92, 39, 39] else [c]) ++ quoteInner rest

/-- `_shell_quote` from server.py line 25-27: wrap in single quotes after
escaping embedded single quotes. -/
def shell_quote (s : List Nat) : List Nat :=
  39 :: (quoteInner s ++ [39])

/-- Inverse of `quoteInner` per the documented quoting rule: each
occurrence of quote-backslash-quote-quote stands for one single quote. -/
def unquoteInner : List Nat → List Nat
  | 39 :: 92 :: 39 :: 39 :: rest => 39 :: unquoteInner rest
  | c :: rest => c :: unquoteInner rest
  | [] => []

/-- Unescaping a shell-quoted token per the documented rule: strip the
surrounding single quotes and undo the embedded-quote escaping. -/
def shellUnquote? (s : List Nat) : Option (List Nat) :=
  match s with
  | 39 :: rest =>
    match rest.getLast? with
    | some 39 => if rest = [] then none else some (unquoteInner rest.dropLast)
    | _ => none
  | _ => none

/-! ### Base64 (`base64.b64encode`, used at server.py line 138) -/

/-- RFC 4648 base64 alphabet: 6-bit index to codepoint. -/
def b64Char (i : Nat) : Nat :=
  if i < 26 then 65 + i
  else if i < 52 then 97 + (i - 26)
  else if i < 62 then 48 + (i - 52)
  else if i = 62 then 43
  else 47

/-- Codepoint back to 6-bit alphabet index. -/
def b64Index (c : Nat) : Option Nat :=
  if 65 ≤ c ∧ c ≤ 90 then some (c - 65)
  else if 97 ≤ c ∧ c ≤ 122 then some (c - 97 + 26)
  else if 48 ≤ c ∧ c ≤ 57 then some (c - 48 + 52)
  else if c = 43 then some 62
  else if c = 47 then some 63
  else none

/-- `base64.b64encode`: standard base64 with `=` (codepoint 61) padding,
three input bytes per four output characters. -/
def b64Encode : List Nat → List Nat
  | a :: b :: c :: rest =>
    b64Char (a / 4) :: b64Char (a % 4 * 16 + b / 16) ::
      b64Char (b % 16 * 4 + c / 64) :: b64Char (c % 64) :: b64Encode rest
  | [a, b] => [b64Char (a / 4), b64Char (a % 4 * 16 + b / 16), b64Char (b % 16 * 4), 61]
  | [a] => [b64Char (a / 4), b64Char (a % 4 * 16), 61, 61]
  | [] => []

/-- Standard base64 decoding (the inverse the spec's round-trip property
refers to): four characters per quantum, with the final quantum allowed
one or two `=` padding characters. -/
def b64Decode? : List Nat → Option (List Nat)
  | [] => some []
  | c1 :: c2 :: c3 :: c4 :: rest =>
    if c3 = 61 ∧ c4 = 61 ∧ rest = [] then
      match b64Index c1, b64Index c2 with
      | some i1, some i2 => some [i1 * 4 + i2 / 16]
      | _, _ => none
    else if c4 = 61 ∧ rest = [] then
      match b64Index c1, b64Index c2, b64Index c3 with
      | some i1, some i2, some i3 => some [i1 * 4 + i2 / 16, i2 % 16 * 16 + i3 / 4]
      | _, _, _ => none
    else
      match b64Index c1, b64Index c2, b64Index c3, b64Index c4, b64Decode? rest with
      | some i1, some i2, some i3, some i4, some bs =>
        some ((i1 * 4 + i2 / 16) :: (i2 % 16 * 16 + i3 / 4) :: (i3 % 4 * 64 + i4) :: bs)
      | _, _, _, _, _ => none
  | _ => none

/-- `base64.b64encode(body).decode("ascii") if body else ""`
(server.py line 138): the transcript's base64 field. -/
def bodyB64Field (body : List Nat) : List Nat :=
  if body = [] then [] else b64Encode body

/-! ### UTF-8 and Latin-1 codecs (`bytes.decode`, `str` encoding)

`build_curl`/`build_httpie` (server.py lines 30-54) try
`body.decode("utf-8")` and fall back to `body.decode("latin1")`;
`log_request` (line 137) uses `body.decode("utf-8", errors="replace")` and
`build_python_requests` (line 59) uses `errors="backslashreplace"`.
CPython's strict UTF-8 decoder accepts exactly the canonical encodings of
scalar values: no overlong forms, no surrogates (modelled by the
per-leading-byte bounds on the first continuation byte), nothing above
U+10FFFF. -/

/-- Lower bound CPython imposes on the first continuation byte, as a
function of the leading byte (rules out overlong forms and, for 0xF0,
codepoints below U+10000). -/
def cont2Lo (b1 : Nat) : Nat :=
  if b1 = 224 then 160 else if b1 = 240 then 144 else 128

/-- Upper bound on the first continuation byte (rules out surrogates for
leading byte 0xED and codepoints above U+10FFFF for 0xF4). -/
def cont2Hi (b1 : Nat) : Nat :=
  if b1 = 237 then 159 else if b1 = 244 then 143 else 191

/-- Decode one UTF-8 scalar value from leading byte `b1` and remaining
bytes `rest`: the codepoint and the bytes left over, `none` if `b1` does
not start a valid (canonical) sequence. -/
def utf8DecodeOne (b1 : Nat) (rest : List Nat) : Option (Nat × List Nat) :=
  if b1 < 128 then some (b1, rest)
  else if 194 ≤ b1 ∧ b1 ≤ 223 then
    match rest with
    | b2 :: rest2 =>
      if 128 ≤ b2 ∧ b2 ≤ 191 then
        some ((b1 - 192) * 64 + (b2 - 128), rest2)
      else none
    | [] => none
  else if 224 ≤ b1 ∧ b1 ≤ 239 then
    match rest with
    | b2 :: b3 :: rest2 =>
      if (cont2Lo b1 ≤ b2 ∧ b2 ≤ cont2Hi b1) ∧ 128 ≤ b3 ∧ b3 ≤ 191 then
        some ((b1 - 224) * 4096 + (b2 - 128) * 64 + (b3 - 128), rest2)
      else none
    | _ => none
  else if 240 ≤ b1 ∧ b1 ≤ 244 then
    match rest with
    | b2 :: b3 :: b4 :: rest2 =>
      if (cont2Lo b1 ≤ b2 ∧ b2 ≤ cont2Hi b1) ∧ (128 ≤ b3 ∧ b3 ≤ 191)
          ∧ 128 ≤ b4 ∧ b4 ≤ 191 then
        some ((b1 - 240) * 262144 + (b2 - 128) * 4096 + (b3 - 128) * 64 + (b4 - 128), rest2)
      else none
    | _ => none
  else none

/-- Iterate `utf8DecodeOne`; the fuel argument (instantiated with the
input length, which bounds the number of scalars) only makes the
recursion structural. -/
def utf8DecodeAux : Nat → List Nat → Option (List Nat)
  | _, [] => some []
  | 0, _ :: _ => none
  | fuel + 1, b1 :: rest =>
    match utf8DecodeOne b1 rest with
    | some (cp, r) => (utf8DecodeAux fuel r).map (fun cps => cp :: cps)
    | none => none

/-- Strict UTF-8 decoding, `bytes.decode("utf-8")`: bytes to Unicode
codepoints, `none` on any invalid sequence. -/
def utf8Decode? (l : List Nat) : Option (List Nat) :=
  utf8DecodeAux l.length l

/-- Canonical UTF-8 encoding of one Unicode codepoint. -/
def utf8EncodeChar (cp : Nat) : List Nat :=
  if cp < 128 then [cp]
  else if cp < 2048 then [192 + cp / 64, 128 + cp % 64]
  else if cp < 65536 then [224 + cp / 4096, 128 + cp / 64 % 64, 128 + cp % 64]
  else [240 + cp / 262144, 128 + cp / 4096 % 64, 128 + cp / 64 % 64, 128 + cp % 64]

/-- UTF-8 encoding of a codepoint sequence (`str.encode("utf-8")`). -/
def utf8Encode : List Nat → List Nat
  | [] => []
  | cp :: rest => utf8EncodeChar cp ++ utf8Encode rest

/-- Lenient UTF-8 decoding with an error handler, modelling
`bytes.decode("utf-8", errors=...)`: on an invalid sequence the handler's
replacement for the offending byte is emitted and decoding resumes.
(CPython resynchronises on maximal invalid subparts, which can consume up
to three bytes per replacement; this model consumes one byte per
replacement.  No claim depends on the replacement granularity.) -/
def utf8DecodeWith (repl : Nat → List Nat) : List Nat → List Nat
  | [] => []
  | b1 :: rest =>
    if b1 < 128 then b1 :: utf8DecodeWith repl rest
    else if 194 ≤ b1 ∧ b1 ≤ 223 then
      match rest with
      | b2 :: rest2 =>
        if 128 ≤ b2 ∧ b2 ≤ 191 then
          ((b1 - 192) * 64 + (b2 - 128)) :: utf8DecodeWith repl rest2
        else repl b1 ++ utf8DecodeWith repl (b2 :: rest2)
      | [] => repl b1
    else if 224 ≤ b1 ∧ b1 ≤ 239 then
      match rest with
      | b2 :: b3 :: rest2 =>
        if (cont2Lo b1 ≤ b2 ∧ b2 ≤ cont2Hi b1) ∧ 128 ≤ b3 ∧ b3 ≤ 191 then
          ((b1 - 224) * 4096 + (b2 - 128) * 64 + (b3 - 128)) :: utf8DecodeWith repl rest2
        else repl b1 ++ utf8DecodeWith repl (b2 :: b3 :: rest2)
      | [b2] => repl b1 ++ utf8DecodeWith repl [b2]
      | [] => repl b1
    else if 240 ≤ b1 ∧ b1 ≤ 244 then
      match rest with
      | b2 :: b3 :: b4 :: rest2 =>
        if (cont2Lo b1 ≤ b2 ∧ b2 ≤ cont2Hi b1) ∧ (128 ≤ b3 ∧ b3 ≤ 191)
            ∧ 128 ≤ b4 ∧ b4 ≤ 191 then
          ((b1 - 240) * 262144 + (b2 - 128) * 4096 + (b3 - 128) * 64 + (b4 - 128))
            :: utf8DecodeWith repl rest2
        else repl b1 ++ utf8DecodeWith repl (b2 :: b3 :: b4 :: rest2)
      | [b2, b3] => repl b1 ++ utf8DecodeWith repl [b2, b3]
      | [b2] => repl b1 ++ utf8DecodeWith repl [b2]
      | [] => repl b1
    else repl b1 ++ utf8DecodeWith repl rest

/-- Hexadecimal digit as a codepoint (lower case, as Python prints). -/
def hexDigit (n : Nat) : Nat :=
  if n < 10 then 48 + n else 97 + (n - 10)

/-- `errors="replace"`: each offending byte becomes U+FFFD. -/
def replaceHandler (_ : Nat) : List Nat := [65533]

/-- `errors="backslashreplace"`: each offending byte becomes the four
characters backslash, `x`, and two hex digits. -/
def backslashHandler (b : Nat) : List Nat :=
  [92, 120, hexDigit (b / 16 % 16), hexDigit (b % 16)]

/-- `bytes.decode("latin1")`: each byte is its own codepoint. -/
def latin1Decode (body : List Nat) : List Nat := body

/-- `str.encode("latin1")`: each codepoint below 256 is its own byte. -/
def latin1Encode (s : List Nat) : List Nat := s

/-! ### Replay command builders (`build_curl` lines 30-41, `build_httpie`
lines 44-54)

Both functions assemble a list of shell tokens and return
`" ".join(parts)`.  The token lists are modelled directly; the joined
command string is their interleaving with spaces. -/

/-- Codepoints of a literal ASCII string. -/
def strCodes (s : String) : List Nat := s.data.map Char.toNat

/-- The body data tokens of `build_curl` (lines 34-39): nothing for an
empty body, `--data-raw` with the UTF-8 text if the body decodes, else
`--data-binary` with the Latin-1 passthrough text. -/
def curlDataTokens (body : List Nat) : List (List Nat) :=
  if body = [] then []
  else
    match utf8Decode? body with
    | some bodyText => [strCodes "--data-raw", shell_quote bodyText]
    | none => [strCodes "--data-binary", shell_quote (latin1Decode body)]

/-- `build_curl` as its list of shell tokens (lines 30-41):
`curl -i -X <method>`, one `-H '<key>: <val>'` pair per header, the data
tokens, and finally the quoted URL. -/
def build_curl_tokens (method url : List Nat) (headers : List (List Nat × List Nat))
    (body : List Nat) : List (List Nat) :=
  [strCodes "curl", strCodes "-i", strCodes "-X", method]
    ++ headers.flatMap (fun kv => [strCodes "-H", shell_quote (kv.1 ++ strCodes ": " ++ kv.2)])
    ++ curlDataTokens body
    ++ [shell_quote url]

/-- The body data tokens of `build_httpie` (lines 48-53): for a nonempty
body, `--raw` with the UTF-8 text if the body decodes, else `--raw` with
the Latin-1 passthrough text (the same flag in both cases). -/
def httpieDataTokens (body : List Nat) : List (List Nat) :=
  if body = [] then []
  else
    match utf8Decode? body with
    | some bodyText => [strCodes "--raw", shell_quote bodyText]
    | none => [strCodes "--raw", shell_quote (latin1Decode body)]

/-- `build_httpie` as its list of shell tokens (lines 44-54):
`http -v <method> '<url>'`, one `'<key>:<val>'` token per header, then the
`--raw` data tokens. -/
def build_httpie_tokens (method url : List Nat) (headers : List (List Nat × List Nat))
    (body : List Nat) : List (List Nat) :=
  [strCodes "http", strCodes "-v", method, shell_quote url]
    ++ headers.map (fun kv => shell_quote (kv.1 ++ strCodes ":" ++ kv.2))
    ++ httpieDataTokens body

/-- `" ".join(parts)` (lines 41 and 54). -/
def joinTokens (parts : List (List Nat)) : List Nat :=
  List.intercalate [32] parts

/-- `build_curl` itself: the joined command string. -/
def build_curl (method url : List Nat) (headers : List (List Nat × List Nat))
    (body : List Nat) : List Nat :=
  joinTokens (build_curl_tokens method url headers body)

/-- `build_httpie` itself: the joined command string. -/
def build_httpie (method url : List Nat) (headers : List (List Nat × List Nat))
    (body : List Nat) : List Nat :=
  joinTokens (build_httpie_tokens method url headers body)

/-! ### Recovery of the original request from the replay tokens

These functions implement the spec's round-trip reading: unescape every
shell-quoted token per the documented quoting rule and reassemble the
method, URL, header pairs and body bytes. -/

/-- Split an unescaped curl header token `key: value` at the first colon
(header names contain no colon). -/
def headerUnpackCurl (s : List Nat) : List Nat × List Nat :=
  (s.takeWhile (fun c => c ≠ 58), (s.dropWhile (fun c => c ≠ 58)).drop 2)

/-- Split an unescaped httpie header token `key:value` at the first colon. -/
def headerUnpackHttpie (s : List Nat) : List Nat × List Nat :=
  (s.takeWhile (fun c => c ≠ 58), (s.dropWhile (fun c => c ≠ 58)).drop 1)

/-- Parse the curl tokens after `curl -i -X <method>`: header pairs, the
optional data tokens, and the final quoted URL.  `--data-raw` text is
re-encoded as UTF-8, `--data-binary` text re-encoded as Latin-1. -/
def curlParseRest : List (List Nat) → Option (List (List Nat × List Nat) × List Nat × List Nat)
  | [u] => do
    let url ← shellUnquote? u
    some ([], [], url)
  | f :: d :: rest =>
    if f = strCodes "-H" then do
      let hv ← shellUnquote? d
      let (hs, body, url) ← curlParseRest rest
      some (headerUnpackCurl hv :: hs, body, url)
    else if f = strCodes "--data-raw" then
      match rest with
      | [u] => do
        let bodyText ← shellUnquote? d
        let url ← shellUnquote? u
        some ([], utf8Encode bodyText, url)
      | _ => none
    else if f = strCodes "--data-binary" then
      match rest with
      | [u] => do
        let bodyText ← shellUnquote? d
        let url ← shellUnquote? u
        some ([], latin1Encode bodyText, url)
      | _ => none
    else none
  | _ => none

/-- Recover `(method, url, headers, body)` from the curl token list. -/
def curlRecover (tokens : List (List Nat)) :
    Option (List Nat × List Nat × List (List Nat × List Nat) × List Nat) :=
  match tokens with
  | c :: i :: x :: m :: rest =>
    if c = strCodes "curl" ∧ i = strCodes "-i" ∧ x = strCodes "-X" then do
      let (hs, body, url) ← curlParseRest rest
      some (m, url, hs, body)
    else none
  | _ => none

/-- Parse the httpie tokens after `http -v <method> '<url>'`: quoted
header tokens followed by the optional `--raw` data token, whose text is
re-encoded as UTF-8. -/
def httpieParseRest : List (List Nat) → Option (List (List Nat × List Nat) × List Nat)
  | [] => some ([], [])
  | f :: rest =>
    if f = strCodes "--raw" then
      match rest with
      | [d] => do
        let bodyText ← shellUnquote? d
        some ([], utf8Encode bodyText)
      | _ => none
    else do
      let hv ← shellUnquote? f
      let (hs, body) ← httpieParseRest rest
      some (headerUnpackHttpie hv :: hs, body)

/-- Recover `(method, url, headers, body)` from the httpie token list. -/
def httpieRecover (tokens : List (List Nat)) :
    Option (List Nat × List Nat × List (List Nat × List Nat) × List Nat) :=
  match tokens with
  | h :: v :: m :: u :: rest =>
    if h = strCodes "http" ∧ v = strCodes "-v" then do
      let url ← shellUnquote? u
      let (hs, body) ← httpieParseRest rest
      some (m, url, hs, body)
    else none
  | _ => none

/-! ### Python `int(str)` (used by `_read_body`, server.py line 91)

Model of CPython's decimal `int` constructor on strings: surrounding
whitespace is stripped, one optional sign, then ASCII digits with single
underscores allowed between digits.  (CPython additionally accepts
non-ASCII decimal digits and Unicode whitespace; header values are ASCII,
and no claim distinguishes those inputs.) -/

/-- ASCII whitespace stripped by `int`. -/
def isPyWs (c : Char) : Bool := c.toNat = 32 || (9 ≤ c.toNat && c.toNat ≤ 13)

/-- ASCII decimal digit test. -/
def isAsciiDigit (c : Char) : Bool := 48 ≤ c.toNat && c.toNat ≤ 57

/-- Continue a digit run: single underscores are only legal between two
digits (`1_0` parses, `1_` and `1__0` do not). -/
def digitsRest (acc : Nat) : List Char → Option Nat
  | [] => some acc
  | '_' :: c :: rest =>
    if isAsciiDigit c then digitsRest (acc * 10 + (c.toNat - 48)) rest else none
  | c :: rest =>
    if isAsciiDigit c then digitsRest (acc * 10 + (c.toNat - 48)) rest else none

/-- A nonempty digit run with optional internal underscores. -/
def digitsVal? : List Char → Option Nat
  | [] => none
  | c :: rest => if isAsciiDigit c then digitsRest (c.toNat - 48) rest else none

/-- `int(s)`: `none` models `ValueError`. -/
def pyInt? (s : String) : Option Int :=
  match (s.data.dropWhile isPyWs).reverse.dropWhile isPyWs |>.reverse with
  | [] => none
  | c :: rest =>
    if c = '-' then (digitsVal? rest).map (fun n => -(n : Int))
    else if c = '+' then (digitsVal? rest).map (fun n => (n : Int))
    else (digitsVal? (c :: rest)).map (fun n => (n : Int))

/-! ### Header access and body reading

`self.headers` is an `http.client.HTTPMessage`; its `get(name, default)`
is case-insensitive on the header name and returns the value of the first
matching header in arrival order, while `items()` returns every header as
a `(name, value)` pair in arrival order.  A parsed request's headers are
modelled as that arrival-ordered list of pairs. -/

/-- ASCII lower-casing of one character, as `str.lower()` acts on the
ASCII header names compared by `HTTPMessage.get`. -/
def lowerChar (c : Char) : Char :=
  if 65 ≤ c.toNat ∧ c.toNat ≤ 90 then Char.ofNat (c.toNat + 32) else c

/-- `str.lower()` on a header name. -/
def lowerStr (s : String) : String := String.mk (s.data.map lowerChar)

/-- `HTTPMessage.get(name)`: value of the first header whose name matches
case-insensitively, if any. -/
def lookupCI (headers : List (String × String)) (name : String) : Option String :=
  (headers.find? (fun p => lowerStr p.1 == lowerStr name)).map Prod.snd

/-- `LoggingHandler._read_body` (server.py lines 86-94), returning the
body bytes together with the list of read lengths issued against
`self.rfile` (empty list = no read performed).  A missing or empty
`Content-Length` returns `b""` at once; a `ValueError` from `int` makes
the length 0; `self.rfile.read(length)` runs only when `length > 0`. -/
def read_body (headers : List (String × String)) (rfileData : List Nat) :
    List Nat × List Nat :=
  match lookupCI headers "Content-Length" with
  | none => ([], [])
  | some lengthStr =>
    if lengthStr = "" then ([], [])
    else
      let length : Int := (pyInt? lengthStr).getD 0
      if 0 < length then (rfileData.take length.toNat, [length.toNat]) else ([], [])

/-! ### The header dict (`_respond`, server.py line 106)

`log_request` receives `{k: v for k, v in self.headers.items()}`: a dict
built by inserting the arrival-ordered pairs left to right.  A repeated
key keeps its first position but its value is overwritten. -/

/-- One Python dict insertion `d[k] = v` on an insertion-ordered
association list. -/
def dictInsert (d : List (String × String)) (k v : String) : List (String × String) :=
  if k ∈ d.map Prod.fst then d.map (fun p => if p.1 = k then (k, v) else p)
  else d ++ [(k, v)]

/-- The dict comprehension `{k: v for k, v in items}` as an
insertion-ordered association list. -/
def dictOfItems (items : List (String × String)) : List (String × String) :=
  items.foldl (fun d kv => dictInsert d kv.1 kv.2) []

/-! ### URL reconstruction (`_respond`, server.py lines 98-101) -/

/-- `self.headers.get("Host", f"{server_name}:{server_port}")`. -/
def hostHeaderValue (headers : List (String × String)) (serverName : String)
    (serverPort : Nat) : String :=
  (lookupCI headers "Host").getD (serverName ++ ":" ++ toString serverPort)

/-- `full_url = f"http://{host_header}{self.path}"`. -/
def fullUrl (headers : List (String × String)) (serverName : String) (serverPort : Nat)
    (path : String) : String :=
  "http://" ++ hostHeaderValue headers serverName serverPort ++ path

/-! ### Transcript renderer (`LogServer.log_request`, server.py lines 135-167) -/

/-- Codepoints back to a Lean string (rendering direction only). -/
def codesToString (l : List Nat) : String := String.mk (l.map Char.ofNat)

/-- Quote character chosen by Python `repr` for a string: a single quote
unless the string contains one and no double quote. -/
def pyReprQuote (s : List Nat) : Nat :=
  if 39 ∈ s ∧ ¬ 34 ∈ s then 34 else 39

/-- Python `repr` escaping of one character given the chosen quote:
backslash and the quote are backslash-escaped, newline / carriage return /
tab use their mnemonics, other C0 controls and DEL become `\xNN`.
(Codepoints at 128 and above are kept verbatim, approximating CPython,
which also escapes non-printable non-ASCII characters; no claim depends
on those.) -/
def pyReprChar (q c : Nat) : List Nat :=
  if c = 92 ∨ c = q then [92, c]
  else if c = 10 then [92, 110]
  else if c = 13 then [92, 114]
  else if c = 9 then [92, 116]
  else if c < 32 ∨ c = 127 then [92, 120, hexDigit (c / 16 % 16), hexDigit (c % 16)]
  else [c]

/-- Python `repr` of a string. -/
def pyRepr (s : List Nat) : List Nat :=
  let q := pyReprQuote s
  q :: (s.flatMap (pyReprChar q) ++ [q])

/-- `repr` of a Lean-level string. -/
def reprStr (s : String) : String := codesToString (pyRepr (strCodes s))

/-- Python `repr` of the headers dict: `\x7bk1: v1, k2: v2\x7d` with
`repr`ed keys and values (braces written as escapes throughout this
file). -/
def reprDict (headers : List (String × String)) : String :=
  "\x7b" ++ String.intercalate ", " (headers.map fun p => reprStr p.1 ++ ": " ++ reprStr p.2)
    ++ "\x7d"

/-- `build_python_requests` (server.py lines 57-72): the dedented,
stripped scripting snippet. -/
def build_python_requests (method url : String) (headers : List (String × String))
    (body : List Nat) : String :=
  "import requests\n\nurl = " ++ reprStr url
    ++ "\nheaders = " ++ reprDict headers
    ++ "\ndata = " ++ codesToString (pyRepr (utf8DecodeWith backslashHandler body))
    ++ "\n\nresp = requests.request(" ++ reprStr method
    ++ ", url, headers=headers, data=data)\nprint(resp.status_code)\nprint(resp.text)"

/-- `textwrap.indent(s, "    ")`: four spaces before every line that has
non-whitespace content. -/
def indent4 (s : String) : String :=
  String.intercalate "\n" ((s.splitOn "\n").map fun l => if l.trim = "" then l else "    " ++ l)

/-- `"\n".join(f"  - {k}: {v}" for k, v in headers.items()) or "  - (none)"`
(server.py line 144). -/
def headersBlockStr (headers : List (String × String)) : String :=
  let joined := String.intercalate "\n" (headers.map fun p => "  - " ++ p.1 ++ ": " ++ p.2)
  if joined = "" then "  - (none)" else joined

/-- `body.decode("utf-8", errors="replace") if body else ""` (line 137). -/
def utf8Field (body : List Nat) : String :=
  if body = [] then "" else codesToString (utf8DecodeWith replaceHandler body)

/-- The base64 field as rendered text (line 138). -/
def b64FieldStr (body : List Nat) : String := codesToString (bodyB64Field body)

/-- `build_curl` rendered for the transcript. -/
def curlCmdStr (method url : String) (headers : List (String × String))
    (body : List Nat) : String :=
  codesToString (build_curl (strCodes method) (strCodes url)
    (headers.map fun p => (strCodes p.1, strCodes p.2)) body)

/-- `build_httpie` rendered for the transcript. -/
def httpieCmdStr (method url : String) (headers : List (String × String))
    (body : List Nat) : String :=
  codesToString (build_httpie (strCodes method) (strCodes url)
    (headers.map fun p => (strCodes p.1, strCodes p.2)) body)

/-- The `lines` list of `LogServer.log_request` (server.py lines 146-166).
The wall-clock timestamp (line 136) is a parameter of the model. -/
def log_request_lines (ts client method path url : String)
    (headers : List (String × String)) (body : List Nat) : List String :=
  let body_utf8 := utf8Field body
  let body_b64 := b64FieldStr body
  let curl_cmd := curlCmdStr method url headers body
  let httpie_cmd := httpieCmdStr method url headers body
  let requests_snippet := build_python_requests method url headers body
  let headers_block := headersBlockStr headers
  ["----- REQUEST START " ++ ts ++ " -----",
   "client: " ++ client,
   "method: " ++ method,
   "path: " ++ path,
   "url: " ++ url,
   "headers:",
   headers_block,
   "body:",
   "  length: " ++ toString body.length ++ " bytes",
   "  utf8: " ++ body_utf8,
   "  base64: " ++ body_b64,
   "replay:",
   "  curl: |",
   indent4 curl_cmd,
   "  httpie: |",
   indent4 httpie_cmd,
   "  python_requests: |",
   indent4 requests_snippet,
   "----- REQUEST END " ++ ts ++ " -----\n"]

/-- `LogServer.log_request` renders one transcript block:
`self.logger.info("\n".join(lines))` (line 167). -/
def log_request (ts client method path url : String)
    (headers : List (String × String)) (body : List Nat) : String :=
  String.intercalate "\n" (log_request_lines ts client method path url headers body)

/-! ### Request handling (`LoggingHandler`, server.py lines 83-122)

`_respond` is stateful: it reads the body, logs, then writes the
response.  It is modelled as the ordered list of side effects it
performs.  `BaseHTTPRequestHandler` dispatches a parsed request to the
`do_<METHOD>` attribute and answers 501 ("Unsupported method") itself
when no such attribute exists; line 118 installs the same `_respond` for
exactly six method names. -/

/-- Fixed response configuration held by the `LogServer` instance
(`LogServer.__init__`, server.py lines 128-133): loaded once at startup,
immutable afterwards. -/
structure LogServer where
  response_body : List Nat
  response_content_type : String
deriving DecidableEq

/-- A parsed incoming request: request line data, arrival-ordered
headers, peer address, and the bytes available on `self.rfile` after the
header block. -/
structure Request where
  method : String
  path : String
  headers : List (String × String)
  client : String
  rfileData : List Nat
deriving DecidableEq

/-- One observable side effect of handling a connection, in program
order. -/
inductive Effect where
  | logBlock (block : String)
  | sendStatus (code : Nat)
  | sendHeader (name value : String)
  | endHeaders
  | writeBody (bytes : List Nat)
  | sendError (code : Nat)
deriving DecidableEq

/-- The log-sink append. -/
def Effect.isLogBlock : Effect → Bool
  | .logBlock _ => true
  | _ => false

/-- Effects that write bytes to the client connection (status line,
headers, body, and the base handler's error response). -/
def Effect.isClientWrite : Effect → Bool
  | .logBlock _ => false
  | _ => true

/-- `LoggingHandler._respond` (server.py lines 96-115) as its effect
trace: read the body, log one transcript block, then send the fixed
response. -/
def respondEffects (srv : LogServer) (serverName : String) (serverPort : Nat)
    (ts : String) (req : Request) : List Effect :=
  let body := (read_body req.headers req.rfileData).1
  let url := fullUrl req.headers serverName serverPort req.path
  let block := log_request ts req.client req.method req.path url
    (dictOfItems req.headers) body
  [Effect.logBlock block,
   Effect.sendStatus 200,
   Effect.sendHeader "Content-Type" srv.response_content_type,
   Effect.sendHeader "Content-Length" (toString srv.response_body.length),
   Effect.endHeaders,
   Effect.writeBody srv.response_body]

/-- The method names given a `do_` alias at server.py line 118. -/
def handledMethods : List String :=
  ["GET", "POST", "PUT", "PATCH", "DELETE", "OPTIONS"]

/-- Handling of one successfully parsed request: `_respond` when the
method has a `do_` alias, else the base handler's 501 error response. -/
def handle (srv : LogServer) (serverName : String) (serverPort : Nat)
    (ts : String) (req : Request) : List Effect :=
  if req.method ∈ handledMethods then respondEffects srv serverName serverPort ts req
  else [Effect.sendError 501]

/-! ### Characterisations used to state the header-dict behaviour -/

/-- The value of the last header with exactly the name `k`, if any. -/
def lastAssoc (items : List (String × String)) (k : String) : Option String :=
  items.foldl (fun acc p => if p.1 = k then some p.2 else acc) none

/-- Key list deduplicated to first occurrences, preserving arrival
order. -/
def firstKeys : List String → List String
  | [] => []
  | k :: rest => k :: (firstKeys rest).filter (fun x => x ≠ k)

/-!
## Theorems

Helper lemmas first, then one theorem per claim (witnesses and
counterexamples alongside their claims).
-/

/-! #### Shell-quoting round trip -/

theorem unquoteInner_cons_ne (c : Nat) (l : List Nat) (h : c ≠ 39) :
    unquoteInner (c :: l) = c :: unquoteInner l := by
  conv_lhs => rw [unquoteInner.eq_def]
  split
  · rename_i heq
    exact absurd (by injection heq) h
  · rename_i heq
    injection heq with h1 h2
    rw [h1, h2]
  · rename_i heq
    exact absurd heq (List.cons_ne_nil c l)

theorem unquoteInner_quoteInner (s : List Nat) : unquoteInner (quoteInner s) = s := by
  induction s with
  | nil => rfl
  | cons c rest ih =>
    by_cases hc : c = 39
    · subst hc
      show unquoteInner (39 :: 92 :: 39 :: 39 :: quoteInner rest) = 39 :: rest
      rw [unquoteInner, ih]
    · rw [quoteInner, if_neg hc, List.singleton_append, unquoteInner_cons_ne c _ hc, ih]

theorem shellUnquote?_shell_quote (s : List Nat) :
    shellUnquote? (shell_quote s) = some s := by
  rw [shell_quote, shellUnquote?]
  rw [List.getLast?_concat]
  rw [if_neg (by simp), List.dropLast_concat, unquoteInner_quoteInner]

/-! #### Base64 round trip -/

theorem b64Index_b64Char : ∀ i < 64, b64Index (b64Char i) = some i := by decide

theorem b64Char_ne_61 : ∀ i < 64, b64Char i ≠ 61 := by decide

theorem b64Encode_ne_nil (l : List Nat) (h : l ≠ []) : b64Encode l ≠ [] := by
  match l with
  | [] => exact absurd rfl h
  | [a] => simp [b64Encode]
  | [a, b] => simp [b64Encode]
  | a :: b :: c :: rest => simp [b64Encode]

theorem b64Decode?_b64Encode_aux :
    ∀ n (body : List Nat), body.length ≤ n → (∀ b ∈ body, b < 256) →
      b64Decode? (b64Encode body) = some body := by
  intro n
  induction n with
  | zero =>
    intro body hlen _
    rw [List.eq_nil_of_length_eq_zero (Nat.le_zero.mp hlen)]
    rfl
  | succ n ih =>
    intro body hlen hb
    match body with
    | [] => rfl
    | [a] =>
      have ha : a < 256 := hb a (by simp)
      rw [b64Encode, b64Decode?]
      rw [if_pos ⟨rfl, rfl, rfl⟩]
      rw [b64Index_b64Char _ (by omega), b64Index_b64Char _ (by omega)]
      simp only [Option.some.injEq, List.cons.injEq, and_true]
      omega
    | [a, b] =>
      have ha : a < 256 := hb a (by simp)
      have hbb : b < 256 := hb b (by simp)
      rw [b64Encode, b64Decode?]
      rw [if_neg (by
        intro hcon
        exact b64Char_ne_61 (b % 16 * 4) (by omega) hcon.1)]
      rw [if_pos ⟨rfl, rfl⟩]
      rw [b64Index_b64Char _ (by omega), b64Index_b64Char _ (by omega),
        b64Index_b64Char _ (by omega)]
      simp only [Option.some.injEq, List.cons.injEq, and_true]
      constructor
      · omega
      · omega
    | a :: b :: c :: rest =>
      have ha : a < 256 := hb a (by simp)
      have hbb : b < 256 := hb b (by simp)
      have hc : c < 256 := hb c (by simp)
      have hrest : ∀ x ∈ rest, x < 256 := fun x hx => hb x (by simp [hx])
      have hlen' : rest.length ≤ n := by
        simp only [List.length_cons] at hlen
        omega
      have hdec := ih rest hlen' hrest
      rw [b64Encode]
      match hr : rest with
      | [] =>
        rw [b64Decode?]
        rw [if_neg (by
          intro hcon
          exact b64Char_ne_61 (b % 16 * 4 + c / 64) (by omega) hcon.1)]
        rw [if_neg (by
          intro hcon
          exact b64Char_ne_61 (c % 64) (by omega) hcon.1)]
        rw [b64Index_b64Char _ (by omega), b64Index_b64Char _ (by omega),
          b64Index_b64Char _ (by omega), b64Index_b64Char _ (by omega)]
        rw [show b64Encode [] = [] from rfl, show b64Decode? [] = some [] from rfl]
        simp only [Option.some.injEq, List.cons.injEq, and_true, List.nil_eq,
          List.append_nil]
        refine ⟨by omega, by omega, by omega⟩
      | r :: rs =>
        have hne : b64Encode (r :: rs) ≠ [] := b64Encode_ne_nil _ (by simp)
        rw [b64Decode?]
        rw [if_neg (fun hcon => hne hcon.2.2)]
        rw [if_neg (fun hcon => hne hcon.2)]
        rw [b64Index_b64Char _ (by omega), b64Index_b64Char _ (by omega),
          b64Index_b64Char _ (by omega), b64Index_b64Char _ (by omega), hdec]
        simp only [Option.some.injEq, List.cons.injEq, and_true]
        refine ⟨by omega, by omega, by omega⟩

theorem b64Decode?_b64Encode (body : List Nat) (h : ∀ b ∈ body, b < 256) :
    b64Decode? (b64Encode body) = some body :=
  b64Decode?_b64Encode_aux body.length body le_rfl h

/-- C5: for every request body byte sequence — including the empty one
and ones that are not valid UTF-8 — base64-decoding the transcript's
`base64` field yields exactly the original raw body bytes. -/
theorem c5_base64_roundtrip (body : List Nat) (h : ∀ b ∈ body, b < 256) :
    b64Decode? (bodyB64Field body) = some body := by
  rw [bodyB64Field]
  by_cases hb : body = []
  · rw [if_pos hb, hb]; rfl
  · rw [if_neg hb]
    exact b64Decode?_b64Encode body h

/-- Witness for C5 at a concrete body that is not valid UTF-8. -/
theorem c5_base64_roundtrip_witness :
    b64Decode? (bodyB64Field [104, 255, 0, 233]) = some [104, 255, 0, 233] :=
  c5_base64_roundtrip [104, 255, 0, 233] (by decide)

/-! #### UTF-8 round trip: re-encoding a strictly decoded byte string
gives back exactly the original bytes (the decoder accepts only canonical
encodings). -/

theorem utf8EncodeChar_1 (b1 : Nat) (h : b1 < 128) : utf8EncodeChar b1 = [b1] := by
  rw [utf8EncodeChar, if_pos h]

theorem utf8EncodeChar_2 (b1 b2 : Nat) (h1 : 194 ≤ b1) (h2 : b1 ≤ 223)
    (h3 : 128 ≤ b2) (h4 : b2 ≤ 191) :
    utf8EncodeChar ((b1 - 192) * 64 + (b2 - 128)) = [b1, b2] := by
  rw [utf8EncodeChar, if_neg (by omega), if_pos (by omega)]
  simp only [List.cons.injEq, and_true]
  omega

theorem utf8EncodeChar_3 (b1 b2 b3 : Nat) (h1 : 224 ≤ b1) (h2 : b1 ≤ 239)
    (hlo : cont2Lo b1 ≤ b2) (hhi : b2 ≤ cont2Hi b1) (h5 : 128 ≤ b3) (h6 : b3 ≤ 191) :
    utf8EncodeChar ((b1 - 224) * 4096 + (b2 - 128) * 64 + (b3 - 128)) = [b1, b2, b3] := by
  rw [cont2Lo] at hlo
  rw [cont2Hi] at hhi
  have hb2 : 128 ≤ b2 ∧ b2 ≤ 191 ∧ (b1 = 224 → 160 ≤ b2) := by
    by_cases h224 : b1 = 224
    · rw [if_pos h224] at hlo
      rw [if_neg (by omega), if_neg (by omega)] at hhi
      omega
    · rw [if_neg h224, if_neg (by omega)] at hlo
      by_cases h237 : b1 = 237
      · rw [if_pos h237] at hhi
        omega
      · rw [if_neg h237, if_neg (by omega)] at hhi
        omega
  have hge : 2048 ≤ (b1 - 224) * 4096 + (b2 - 128) * 64 + (b3 - 128) := by
    by_cases h : b1 = 224
    · have := hb2.2.2 h
      omega
    · omega
  rw [utf8EncodeChar, if_neg (by omega), if_neg (by omega), if_pos (by omega)]
  simp only [List.cons.injEq, and_true]
  refine ⟨by omega, by omega, by omega⟩

theorem utf8EncodeChar_4 (b1 b2 b3 b4 : Nat) (h1 : 240 ≤ b1) (h2 : b1 ≤ 244)
    (hlo : cont2Lo b1 ≤ b2) (hhi : b2 ≤ cont2Hi b1) (h5 : 128 ≤ b3) (h6 : b3 ≤ 191)
    (h7 : 128 ≤ b4) (h8 : b4 ≤ 191) :
    utf8EncodeChar ((b1 - 240) * 262144 + (b2 - 128) * 4096 + (b3 - 128) * 64 + (b4 - 128))
      = [b1, b2, b3, b4] := by
  rw [cont2Lo] at hlo
  rw [cont2Hi] at hhi
  have hb2 : 128 ≤ b2 ∧ b2 ≤ 191 ∧ (b1 = 240 → 144 ≤ b2) := by
    by_cases h240 : b1 = 240
    · rw [if_neg (by omega), if_pos h240] at hlo
      rw [if_neg (by omega), if_neg (by omega)] at hhi
      omega
    · rw [if_neg (by omega), if_neg h240] at hlo
      by_cases h244 : b1 = 244
      · rw [if_neg (by omega), if_pos h244] at hhi
        omega
      · rw [if_neg (by omega), if_neg h244] at hhi
        omega
  have hge : 65536 ≤ (b1 - 240) * 262144 + (b2 - 128) * 4096 + (b3 - 128) * 64 + (b4 - 128) := by
    by_cases h : b1 = 240
    · have := hb2.2.2 h
      omega
    · omega
  rw [utf8EncodeChar, if_neg (by omega), if_neg (by omega), if_neg (by omega)]
  simp only [List.cons.injEq, and_true]
  refine ⟨by omega, by omega, by omega, by omega⟩

theorem utf8DecodeOne_spec (b1 cp : Nat) (rest r : List Nat)
    (h : utf8DecodeOne b1 rest = some (cp, r)) :
    utf8EncodeChar cp ++ r = b1 :: rest := by
  rw [utf8DecodeOne.eq_def] at h
  split at h
  · -- one byte
    rename_i h1
    simp only [Option.some.injEq, Prod.mk.injEq] at h
    obtain ⟨h2, h3⟩ := h
    subst h2
    subst h3
    rw [utf8EncodeChar_1 b1 h1]
    rfl
  · split at h
    · -- two bytes: match on the remaining bytes
      split at h
      · rename_i hlt h2 rest0 b2 rest2
        split at h
        · rename_i h3
          simp only [Option.some.injEq, Prod.mk.injEq] at h
          obtain ⟨h4, h5⟩ := h
          subst h4
          subst h5
          rw [utf8EncodeChar_2 b1 b2 h2.1 h2.2 h3.1 h3.2]
          rfl
        · exact Option.noConfusion h
      · exact Option.noConfusion h
    · split at h
      · -- three bytes
        split at h
        · rename_i hlt hno2 h3 rest0 b2 b3 rest2
          split at h
          · rename_i h4
            simp only [Option.some.injEq, Prod.mk.injEq] at h
            obtain ⟨h5, h6⟩ := h
            subst h5
            subst h6
            rw [utf8EncodeChar_3 b1 b2 b3 h3.1 h3.2 h4.1.1 h4.1.2 h4.2.1 h4.2.2]
            rfl
          · exact Option.noConfusion h
        · exact Option.noConfusion h
      · split at h
        · -- four bytes
          split at h
          · rename_i hlt hno2 hno3 h4 rest0 b2 b3 b4 rest2
            split at h
            · rename_i h5
              simp only [Option.some.injEq, Prod.mk.injEq] at h
              obtain ⟨h6, h7⟩ := h
              subst h6
              subst h7
              rw [utf8EncodeChar_4 b1 b2 b3 b4 h4.1 h4.2 h5.1.1 h5.1.2
                h5.2.1.1 h5.2.1.2 h5.2.2.1 h5.2.2.2]
              rfl
            · exact Option.noConfusion h
          · exact Option.noConfusion h
        · exact Option.noConfusion h

theorem utf8Encode_of_decodeAux :
    ∀ fuel (bs cps : List Nat), utf8DecodeAux fuel bs = some cps →
      utf8Encode cps = bs := by
  intro fuel
  induction fuel with
  | zero =>
    intro bs cps hdec
    cases bs with
    | nil =>
      have h : some ([] : List Nat) = some cps := hdec
      injection h with h
      rw [← h]
      rfl
    | cons b1 rest => exact Option.noConfusion hdec
  | succ n ih =>
    intro bs cps hdec
    cases bs with
    | nil =>
      have h : some ([] : List Nat) = some cps := hdec
      injection h with h
      rw [← h]
      rfl
    | cons b1 rest =>
      rw [utf8DecodeAux] at hdec
      cases h1 : utf8DecodeOne b1 rest with
      | none =>
        rw [h1] at hdec
        exact Option.noConfusion hdec
      | some pr =>
        obtain ⟨cp, r⟩ := pr
        simp only [h1] at hdec
        rw [Option.map_eq_some'] at hdec
        obtain ⟨cps', hrec, hmap⟩ := hdec
        rw [← hmap, utf8Encode, ih r cps' hrec, utf8DecodeOne_spec b1 cp rest r h1]

theorem utf8Encode_of_decode (bs cps : List Nat) (h : utf8Decode? bs = some cps) :
    utf8Encode cps = bs :=
  utf8Encode_of_decodeAux bs.length bs cps h

/-! #### Replay-command recovery (claim C6) -/

theorem takeWhile_ne_append (k t : List Nat) (hk : ∀ x ∈ k, x ≠ 58) :
    (k ++ 58 :: t).takeWhile (fun c => c ≠ 58) = k
      ∧ (k ++ 58 :: t).dropWhile (fun c => c ≠ 58) = 58 :: t := by
  induction k with
  | nil => constructor <;> simp [List.takeWhile_cons, List.dropWhile_cons]
  | cons a k ih =>
    have ha : a ≠ 58 := hk a (by simp)
    have ih' := ih (fun x hx => hk x (by simp [hx]))
    constructor
    · rw [List.cons_append, List.takeWhile_cons, if_pos (by simpa using ha), ih'.1]
    · rw [List.cons_append, List.dropWhile_cons, if_pos (by simpa using ha), ih'.2]

theorem headerUnpackCurl_pack (k v : List Nat) (hk : ∀ x ∈ k, x ≠ 58) :
    headerUnpackCurl (k ++ strCodes ": " ++ v) = (k, v) := by
  have h : k ++ strCodes ": " ++ v = k ++ 58 :: (32 :: v) := by
    rw [List.append_assoc]
    rfl
  rw [headerUnpackCurl, h, (takeWhile_ne_append k (32 :: v) hk).1,
    (takeWhile_ne_append k (32 :: v) hk).2]
  rfl

theorem headerUnpackHttpie_pack (k v : List Nat) (hk : ∀ x ∈ k, x ≠ 58) :
    headerUnpackHttpie (k ++ strCodes ":" ++ v) = (k, v) := by
  have h : k ++ strCodes ":" ++ v = k ++ 58 :: v := by
    rw [List.append_assoc]
    rfl
  rw [headerUnpackHttpie, h, (takeWhile_ne_append k v hk).1,
    (takeWhile_ne_append k v hk).2]
  rfl

theorem shell_quote_ne_raw (s : List Nat) : shell_quote s ≠ strCodes "--raw" := by
  intro h
  have h1 := congrArg List.head? h
  rw [show (shell_quote s).head? = some 39 from rfl,
    show (strCodes "--raw").head? = some 45 from rfl] at h1
  exact absurd h1 (by decide)

theorem curlDataTokens_utf8 (body t : List Nat) (hb : body ≠ [])
    (hu : utf8Decode? body = some t) :
    curlDataTokens body = [strCodes "--data-raw", shell_quote t] := by
  rw [curlDataTokens, if_neg hb, hu]

theorem curlDataTokens_latin1 (body : List Nat) (hb : body ≠ [])
    (hu : utf8Decode? body = none) :
    curlDataTokens body = [strCodes "--data-binary", shell_quote (latin1Decode body)] := by
  rw [curlDataTokens, if_neg hb, hu]

theorem httpieDataTokens_utf8 (body t : List Nat) (hb : body ≠ [])
    (hu : utf8Decode? body = some t) :
    httpieDataTokens body = [strCodes "--raw", shell_quote t] := by
  rw [httpieDataTokens, if_neg hb, hu]

theorem curlParseRest_dashH (d : List Nat) (rest : List (List Nat)) :
    curlParseRest (strCodes "-H" :: d :: rest) =
      (shellUnquote? d).bind (fun hv =>
        (curlParseRest rest).bind (fun pr =>
          some (headerUnpackCurl hv :: pr.1, pr.2.1, pr.2.2))) := by
  cases rest with
  | nil =>
    rw [curlParseRest.eq_3 _ _ _ (by intro u h; cases h), if_pos rfl]
    rfl
  | cons t rest' =>
    cases rest' with
    | nil =>
      rw [curlParseRest.eq_2, if_pos rfl]
      rfl
    | cons t2 r2 =>
      rw [curlParseRest.eq_3 _ _ _ (by intro u h; simp at h), if_pos rfl]
      rfl

theorem curlParseRest_build (headers : List (List Nat × List Nat)) (body url : List Nat)
    (hk : ∀ p ∈ headers, ∀ x ∈ p.1, x ≠ 58) :
    curlParseRest
      (headers.flatMap
        (fun kv => [strCodes "-H", shell_quote (kv.1 ++ strCodes ": " ++ kv.2)])
        ++ curlDataTokens body ++ [shell_quote url]) = some (headers, body, url) := by
  induction headers with
  | nil =>
    simp only [List.flatMap_nil, List.nil_append]
    by_cases hb : body = []
    · subst hb
      rw [show curlDataTokens [] = [] from rfl, List.nil_append, curlParseRest,
        shellUnquote?_shell_quote]
      rfl
    · cases hu : utf8Decode? body with
      | some bodyText =>
        rw [curlDataTokens_utf8 body bodyText hb hu,
          show ([strCodes "--data-raw", shell_quote bodyText] ++ [shell_quote url])
            = strCodes "--data-raw" :: shell_quote bodyText :: [shell_quote url] from rfl,
          curlParseRest, if_neg (by decide), if_pos rfl]
        simp only [shellUnquote?_shell_quote, Option.bind_eq_bind, Option.some_bind,
          Option.some.injEq]
        rw [utf8Encode_of_decode body bodyText hu]
      | none =>
        rw [curlDataTokens_latin1 body hb hu,
          show ([strCodes "--data-binary", shell_quote (latin1Decode body)]
              ++ [shell_quote url])
            = strCodes "--data-binary" :: shell_quote (latin1Decode body)
              :: [shell_quote url] from rfl,
          curlParseRest, if_neg (by decide), if_neg (by decide), if_pos rfl]
        simp only [shellUnquote?_shell_quote, Option.bind_eq_bind, Option.some_bind,
          Option.some.injEq]
        rfl
  | cons kv hs ih =>
    have hkv : ∀ x ∈ kv.1, x ≠ 58 := hk kv (by simp)
    have ih' := ih (fun p hp => hk p (by simp [hp]))
    simp only [List.flatMap_cons, List.cons_append, List.append_assoc, List.nil_append]
      at ih' ⊢
    rw [curlParseRest_dashH, shellUnquote?_shell_quote]
    simp only [Option.some_bind]
    rw [ih']
    simp only [Option.some_bind]
    rw [← List.append_assoc, headerUnpackCurl_pack kv.1 kv.2 hkv]

theorem httpieParseRest_header (f : List Nat) (rest : List (List Nat))
    (hf : f ≠ strCodes "--raw") :
    httpieParseRest (f :: rest) =
      (shellUnquote? f).bind (fun hv =>
        (httpieParseRest rest).bind (fun pr =>
          some (headerUnpackHttpie hv :: pr.1, pr.2))) := by
  cases rest with
  | nil =>
    rw [httpieParseRest.eq_3 _ _ (by intro u h; cases h), if_neg hf]
    rfl
  | cons t r =>
    cases r with
    | nil =>
      rw [httpieParseRest.eq_2, if_neg hf]
      rfl
    | cons t2 r2 =>
      rw [httpieParseRest.eq_3 _ _ (by intro u h; simp at h), if_neg hf]
      rfl

theorem httpieParseRest_build (headers : List (List Nat × List Nat)) (body : List Nat)
    (hk : ∀ p ∈ headers, ∀ x ∈ p.1, x ≠ 58)
    (hu : utf8Decode? body ≠ none) :
    httpieParseRest
      (headers.map (fun kv => shell_quote (kv.1 ++ strCodes ":" ++ kv.2))
        ++ httpieDataTokens body) = some (headers, body) := by
  induction headers with
  | nil =>
    simp only [List.map_nil, List.nil_append]
    by_cases hb : body = []
    · subst hb
      rw [show httpieDataTokens [] = [] from rfl, httpieParseRest.eq_1]
    · cases hut : utf8Decode? body with
      | none => exact absurd hut hu
      | some t =>
        rw [httpieDataTokens_utf8 body t hb hut, httpieParseRest.eq_2, if_pos rfl,
          shellUnquote?_shell_quote]
        simp only [Option.bind_eq_bind, Option.some_bind, Option.some.injEq]
        rw [utf8Encode_of_decode body t hut]
  | cons kv hs ih =>
    have hkv : ∀ x ∈ kv.1, x ≠ 58 := hk kv (by simp)
    have ih' := ih (fun p hp => hk p (by simp [hp]))
    simp only [List.map_cons, List.cons_append] at ih' ⊢
    rw [httpieParseRest_header _ _ (shell_quote_ne_raw _), shellUnquote?_shell_quote]
    simp only [Option.some_bind]
    rw [ih']
    simp only [Option.some_bind]
    rw [headerUnpackHttpie_pack kv.1 kv.2 hkv]

/-- C6 (amended): unescaping the shell-quoted tokens per the documented
rule recovers the original method, URL, header pairs (header names never
contain a colon) and body bytes from the curl replay tokens for every
body, Latin-1 fallback included (the `--data-raw`/`--data-binary` flag
records which path was taken); for the httpie replay tokens the same
holds whenever the body is UTF-8-decodable (in particular when empty),
but not in general, because both body paths emit the same `--raw` flag
(see the counterexample). -/
theorem c6_replay_recovery (method url : List Nat)
    (headers : List (List Nat × List Nat)) (body : List Nat)
    (hk : ∀ p ∈ headers, ∀ x ∈ p.1, x ≠ 58) :
    curlRecover (build_curl_tokens method url headers body)
        = some (method, url, headers, body)
      ∧ (utf8Decode? body ≠ none →
          httpieRecover (build_httpie_tokens method url headers body)
            = some (method, url, headers, body)) := by
  constructor
  · have hparse := curlParseRest_build headers body url hk
    simp only [List.append_assoc] at hparse
    rw [build_curl_tokens]
    simp only [List.cons_append, List.nil_append, List.append_assoc]
    rw [curlRecover, if_pos ⟨rfl, rfl, rfl⟩, hparse]
    rfl
  · intro hu
    have hparse := httpieParseRest_build headers body hk hu
    rw [build_httpie_tokens]
    simp only [List.cons_append, List.nil_append]
    rw [httpieRecover, if_pos ⟨rfl, rfl⟩, shellUnquote?_shell_quote]
    simp only [Option.bind_eq_bind, Option.some_bind]
    rw [hparse]
    rfl

/-- Witness for C6 at a concrete request with an embedded single quote in
a header value and a UTF-8 body. -/
theorem c6_replay_recovery_witness :
    curlRecover (build_curl_tokens (strCodes "POST") (strCodes "http://h/p")
        [(strCodes "X-Q", strCodes "it's")] (strCodes "ok"))
      = some (strCodes "POST", strCodes "http://h/p",
          [(strCodes "X-Q", strCodes "it's")], strCodes "ok")
    ∧ httpieRecover (build_httpie_tokens (strCodes "POST") (strCodes "http://h/p")
        [(strCodes "X-Q", strCodes "it's")] (strCodes "ok"))
      = some (strCodes "POST", strCodes "http://h/p",
          [(strCodes "X-Q", strCodes "it's")], strCodes "ok") := by
  have h := c6_replay_recovery (strCodes "POST") (strCodes "http://h/p")
    [(strCodes "X-Q", strCodes "it's")] (strCodes "ok") (by decide)
  exact ⟨h.1, h.2 (by decide)⟩

/-- Counterexample to C6 as stated: the UTF-8 body `0xC3 0xA9` and the
Latin-1-fallback body `0xE9` produce the *same* httpie replay string, so
no unescaping of that string can recover the original body bytes. -/
theorem c6_counterexample :
    build_httpie (strCodes "POST") (strCodes "http://h/p") [] [195, 169]
        = build_httpie (strCodes "POST") (strCodes "http://h/p") [] [233]
      ∧ ([195, 169] : List Nat) ≠ [233] := by
  constructor
  · rfl
  · decide

/-! #### The header dict (claim C3) -/

theorem keys_dictInsert (d : List (String × String)) (k v : String) :
    (dictInsert d k v).map Prod.fst =
      if k ∈ d.map Prod.fst then d.map Prod.fst else d.map Prod.fst ++ [k] := by
  rw [dictInsert]
  split
  · rename_i hmem
    rw [List.map_map]
    refine List.map_congr_left ?_
    intro p _
    by_cases h : p.1 = k
    · simp [h]
    · simp [h]
  · rw [List.map_append]
    rfl

theorem mem_dictInsert (d : List (String × String)) (k v k' v' : String) :
    (k', v') ∈ dictInsert d k v ↔ (k' = k ∧ v' = v) ∨ ((k', v') ∈ d ∧ k' ≠ k) := by
  rw [dictInsert]
  split
  · rename_i hmem
    simp only [List.mem_map]
    constructor
    · rintro ⟨p, hp, hfp⟩
      by_cases h : p.1 = k
      · rw [if_pos h] at hfp
        injection hfp with h1 h2
        left
        exact ⟨h1.symm, h2.symm⟩
      · rw [if_neg h] at hfp
        subst hfp
        right
        exact ⟨hp, by simpa using h⟩
    · rintro (⟨hk, hv⟩ | ⟨hmem', hne⟩)
      · obtain ⟨p, hp, hpk⟩ := List.mem_map.mp hmem
        exact ⟨p, hp, by rw [if_pos hpk, hk, hv]⟩
      · exact ⟨(k', v'), hmem', by rw [if_neg hne]⟩
  · rename_i hmem
    simp only [List.mem_append, List.mem_singleton]
    constructor
    · rintro (hmem' | heq)
      · right
        refine ⟨hmem', ?_⟩
        intro hkk
        exact hmem (List.mem_map.mpr ⟨(k', v'), hmem', hkk⟩)
      · injection heq with h1 h2
        left
        exact ⟨h1, h2⟩
    · rintro (⟨hk, hv⟩ | ⟨hmem', _⟩)
      · right
        rw [hk, hv]
      · left
        exact hmem'

theorem dictOfItems_snoc (items : List (String × String)) (k v : String) :
    dictOfItems (items ++ [(k, v)]) = dictInsert (dictOfItems items) k v := by
  rw [dictOfItems, dictOfItems, List.foldl_append]
  rfl

theorem lastAssoc_snoc (items : List (String × String)) (k v k' : String) :
    lastAssoc (items ++ [(k, v)]) k' =
      if k' = k then some v else lastAssoc items k' := by
  rw [lastAssoc, lastAssoc, List.foldl_append]
  by_cases h : k' = k
  · rw [if_pos h]
    simp only [List.foldl_cons, List.foldl_nil]
    rw [if_pos h.symm]
  · rw [if_neg h]
    simp only [List.foldl_cons, List.foldl_nil]
    rw [if_neg (fun hh => h hh.symm)]

theorem firstKeys_snoc (l : List String) (k : String) :
    firstKeys (l ++ [k]) =
      if k ∈ firstKeys l then firstKeys l else firstKeys l ++ [k] := by
  induction l with
  | nil => simp [firstKeys]
  | cons a l ih =>
    by_cases hak : k = a
    · subst hak
      rw [List.cons_append, firstKeys, ih, firstKeys]
      simp only [List.mem_cons, true_or, if_pos]
      by_cases hk : k ∈ firstKeys l
      · rw [if_pos hk]
      · rw [if_neg hk, List.filter_append]
        simp
    · rw [List.cons_append, firstKeys, ih, firstKeys]
      have hmem : (k ∈ a :: (firstKeys l).filter (fun x => x ≠ a))
          ↔ k ∈ firstKeys l := by
        simp only [List.mem_cons, List.mem_filter]
        constructor
        · rintro (h | ⟨h, _⟩)
          · exact absurd h hak
          · exact h
        · intro h
          right
          exact ⟨h, by simpa using hak⟩
      by_cases hk : k ∈ firstKeys l
      · rw [if_pos hk, if_pos (hmem.mpr hk)]
      · rw [if_neg hk, if_neg (fun hh => hk (hmem.mp hh)), List.filter_append]
        simp only [List.filter_cons, List.filter_nil]
        rw [if_pos (by simpa using hak)]
        simp [List.cons_append]

/-- C3 (amended): the headers recorded in the transcript are the arrival
pairs pushed through a Python dict: names are not case-normalised
(lookup is by exact name), but exact-name duplicates *are* collapsed —
the recorded name list is the arrival name list deduplicated to first
occurrences, and the recorded value for a name is the *last* arriving
value for that exact name (last-one-wins). -/
theorem c3_header_dict (items : List (String × String)) :
    (dictOfItems items).map Prod.fst = firstKeys (items.map Prod.fst)
      ∧ ∀ k v, ((k, v) ∈ dictOfItems items ↔ lastAssoc items k = some v) := by
  induction items using List.reverseRecOn with
  | nil =>
    constructor
    · rfl
    · intro k v
      simp [dictOfItems, lastAssoc]
  | append_singleton items p ih =>
    obtain ⟨k, v⟩ := p
    constructor
    · rw [dictOfItems_snoc, keys_dictInsert, ih.1]
      simp only [List.map_append, List.map_cons, List.map_nil]
      rw [firstKeys_snoc]
    · intro k' v'
      rw [dictOfItems_snoc, lastAssoc_snoc]
      rw [mem_dictInsert]
      by_cases hk : k' = k
      · subst hk
        simp [eq_comm]
      · simp only [hk, false_and, false_or, if_neg hk]
        rw [ih.2 k' v']
        simp [hk]

/-- Counterexample to C3 as stated: two headers with the same exact name
do not both appear in the recorded dict — only the last value survives. -/
theorem c3_counterexample :
    dictOfItems [("X-Dup", "1"), ("X-Dup", "2")] = [("X-Dup", "2")]
      ∧ ("X-Dup", "1") ∉ dictOfItems [("X-Dup", "1"), ("X-Dup", "2")] := by
  constructor
  · rfl
  · decide

/-! #### Body reading (claims C4 and C10) -/

/-- C4: a request whose `Content-Length` header is absent (or present but
empty, which `if not length_str` treats the same way) or non-numeric gets
an empty logged body, and no read is issued against the connection — the
non-numeric case is the defined fallback `length = 0`, not an error. -/
theorem c4_content_length_fallback (headers : List (String × String)) (stream : List Nat)
    (h : lookupCI headers "Content-Length" = none
      ∨ ∃ s, lookupCI headers "Content-Length" = some s ∧ pyInt? s = none) :
    read_body headers stream = ([], []) := by
  rw [read_body]
  rcases h with h | ⟨s, hs, hp⟩
  · rw [h]
  · simp only [hs]
    by_cases he : s = ""
    · rw [if_pos he]
    · rw [if_neg he, hp]
      rfl

/-- Witness for C4: a non-numeric `Content-Length` with bytes available
on the connection. -/
theorem c4_content_length_fallback_witness :
    read_body [("Content-Length", "abc")] [1, 2, 3] = ([], []) :=
  c4_content_length_fallback [("Content-Length", "abc")] [1, 2, 3]
    (Or.inr ⟨"abc", rfl, rfl⟩)

/-- C10: a `Content-Length` that parses as zero or negative returns the
empty byte string without issuing any read — the `length > 0` guard makes
the read-until-EOF behaviour of `rfile.read` with a negative argument
unreachable. -/
theorem c10_nonpositive_length_no_read (headers : List (String × String))
    (stream : List Nat) (s : String) (n : Int)
    (hs : lookupCI headers "Content-Length" = some s)
    (hp : pyInt? s = some n) (hn : n ≤ 0) :
    read_body headers stream = ([], []) := by
  rw [read_body]
  simp only [hs]
  by_cases he : s = ""
  · rw [if_pos he]
  · rw [if_neg he, hp]
    rw [if_neg (by simp only [Option.getD_some]; omega)]

/-- Witness for C10 at `Content-Length: -7`. -/
theorem c10_nonpositive_length_no_read_witness :
    read_body [("Content-Length", "-7")] [9, 9, 9] = ([], []) :=
  c10_nonpositive_length_no_read [("Content-Length", "-7")] [9, 9, 9] "-7" (-7)
    rfl rfl (by decide)

/-! #### URL reconstruction (claim C9) -/

/-- C9: the transcript URL is `http://` followed by the `Host` header
value when one is present (case-insensitive lookup, first match) and by
`serverName:serverPort` otherwise, followed by the raw request path; in
particular `GET /status?x=1` with `Host: example.com:6565` yields
`http://example.com:6565/status?x=1`. -/
theorem c9_url_reconstruction :
    (∀ (headers : List (String × String)) (serverName : String) (serverPort : Nat)
        (path : String),
      (∃ v, lookupCI headers "Host" = some v
          ∧ fullUrl headers serverName serverPort path = "http://" ++ v ++ path)
        ∨ (lookupCI headers "Host" = none
          ∧ fullUrl headers serverName serverPort path
              = "http://" ++ (serverName ++ ":" ++ toString serverPort) ++ path))
    ∧ fullUrl [("Host", "example.com:6565")] "0.0.0.0" 6565 "/status?x=1"
        = "http://example.com:6565/status?x=1" := by
  constructor
  · intro headers serverName serverPort path
    cases h : lookupCI headers "Host" with
    | some v =>
      refine Or.inl ⟨v, rfl, ?_⟩
      rw [fullUrl, hostHeaderValue, h]
      rfl
    | none =>
      refine Or.inr ⟨rfl, ?_⟩
      rw [fullUrl, hostHeaderValue, h]
      rfl
  · rfl

/-! #### Transcript layout (claim C8) -/

theorem intercalate_go_length_ne (sep : String) (acc : String) (l : List String)
    (h : acc.length ≠ 0) : (String.intercalate.go acc sep l).length ≠ 0 := by
  induction l generalizing acc with
  | nil => simpa [String.intercalate.go] using h
  | cons x xs ih =>
    rw [String.intercalate.go]
    refine ih _ ?_
    simp only [String.length_append]
    omega

/-- C8: the transcript block renders its fields in exactly the documented
order — start marker, client, method, path, url, header list (one
`  - name: value` line per recorded header in order, `  - (none)` when
empty), body length, UTF-8 text, base64, and the three replay renderings —
and the start and end markers are exactly
`----- REQUEST START <ts> -----` and `----- REQUEST END <ts> -----` with
the same timestamp (the final list entry carries the block-separating
newline after the end marker). -/
theorem c8_transcript_layout (ts client method path url : String)
    (headers : List (String × String)) (body : List Nat) :
    log_request_lines ts client method path url headers body =
      ["----- REQUEST START " ++ ts ++ " -----",
       "client: " ++ client,
       "method: " ++ method,
       "path: " ++ path,
       "url: " ++ url,
       "headers:",
       headersBlockStr headers,
       "body:",
       "  length: " ++ toString body.length ++ " bytes",
       "  utf8: " ++ utf8Field body,
       "  base64: " ++ b64FieldStr body,
       "replay:",
       "  curl: |",
       indent4 (curlCmdStr method url headers body),
       "  httpie: |",
       indent4 (httpieCmdStr method url headers body),
       "  python_requests: |",
       indent4 (build_python_requests method url headers body),
       "----- REQUEST END " ++ ts ++ " -----\n"]
    ∧ ("----- REQUEST END " ++ ts ++ " -----\n"
        = ("----- REQUEST END " ++ ts ++ " -----") ++ "\n")
    ∧ (∀ k v t, headersBlockStr ((k, v) :: t)
        = String.intercalate "\n" (((k, v) :: t).map fun p => "  - " ++ p.1 ++ ": " ++ p.2))
    ∧ headersBlockStr [] = "  - (none)" := by
  refine ⟨rfl, ?_, ?_, rfl⟩
  · simp only [String.append_assoc]
    rfl
  · intro k v t
    rw [headersBlockStr]
    rw [if_neg ?_]
    intro hemp
    have h1 := congrArg String.length hemp
    simp only [List.map_cons, String.intercalate] at h1
    refine intercalate_go_length_ne "\n" _ _ ?_ h1
    have h4 : ("  - " : String).length = 4 := rfl
    simp only [String.length_append, h4]
    omega

/-! #### Dispatch and the fixed response (claims C1, C2, C7) -/

/-- C1 (amended): every request whose method has a `do_` alias — GET,
POST, PUT, PATCH, DELETE or OPTIONS — receives, regardless of path,
headers or body, a 200 response whose `Content-Type` is the configured
content type, whose `Content-Length` is the byte length of the configured
body, and whose body is byte-for-byte the configured body, after one
transcript block is logged; a request with any other method token is
answered by the base handler's 501 error instead (see the
counterexample). -/
theorem c1_fixed_response (srv : LogServer) (serverName : String) (serverPort : Nat)
    (ts : String) (req : Request) (h : req.method ∈ handledMethods) :
    handle srv serverName serverPort ts req =
      Effect.logBlock (log_request ts req.client req.method req.path
          (fullUrl req.headers serverName serverPort req.path)
          (dictOfItems req.headers) (read_body req.headers req.rfileData).1)
        :: [Effect.sendStatus 200,
            Effect.sendHeader "Content-Type" srv.response_content_type,
            Effect.sendHeader "Content-Length" (toString srv.response_body.length),
            Effect.endHeaders,
            Effect.writeBody srv.response_body] := by
  rw [handle, if_pos h]
  rfl

/-- Witness for C1 on a concrete GET request. -/
theorem c1_fixed_response_witness :
    handle ⟨[79, 75], "text/plain"⟩ "0.0.0.0" 6565 "TS"
        ⟨"GET", "/x", [("Host", "h")], "127.0.0.1", []⟩ =
      Effect.logBlock (log_request "TS" "127.0.0.1" "GET" "/x"
          (fullUrl [("Host", "h")] "0.0.0.0" 6565 "/x")
          (dictOfItems [("Host", "h")])
          (read_body [("Host", "h")] []).1)
        :: [Effect.sendStatus 200,
            Effect.sendHeader "Content-Type" "text/plain",
            Effect.sendHeader "Content-Length" (toString ([79, 75] : List Nat).length),
            Effect.endHeaders,
            Effect.writeBody [79, 75]] :=
  c1_fixed_response ⟨[79, 75], "text/plain"⟩ "0.0.0.0" 6565 "TS"
    ⟨"GET", "/x", [("Host", "h")], "127.0.0.1", []⟩ (by decide)

/-- Counterexample to C1 as stated: a parsed request with method `FOO`
is answered with the base handler's 501 error, not the fixed 200
response. -/
theorem c1_counterexample :
    handle ⟨[79, 75], "text/plain"⟩ "0.0.0.0" 6565 "TS"
        ⟨"FOO", "/x", [], "127.0.0.1", []⟩ = [Effect.sendError 501]
      ∧ Effect.sendStatus 200 ∉
          handle ⟨[79, 75], "text/plain"⟩ "0.0.0.0" 6565 "TS"
            ⟨"FOO", "/x", [], "127.0.0.1", []⟩ := by
  constructor
  · rfl
  · decide

/-- C2 (amended): the six aliased methods are all routed to the one
shared `_respond` logic (transcribe, then the fixed 200 response), with
no per-method differences; every other method token is answered with the
base handler's 501 error and is not transcribed. -/
theorem c2_method_dispatch (srv : LogServer) (serverName : String) (serverPort : Nat)
    (ts : String) (req : Request) :
    (req.method ∈ handledMethods
        ∧ handle srv serverName serverPort ts req
            = respondEffects srv serverName serverPort ts req)
      ∨ (req.method ∉ handledMethods
        ∧ handle srv serverName serverPort ts req = [Effect.sendError 501]) := by
  by_cases h : req.method ∈ handledMethods
  · exact Or.inl ⟨h, by rw [handle, if_pos h]⟩
  · exact Or.inr ⟨h, by rw [handle, if_neg h]⟩

/-- Counterexample to C2 as stated: the method token `HEAD` is not routed
to the shared handling logic — it is answered with 501 and no transcript
block is appended. -/
theorem c2_counterexample :
    handle ⟨[79, 75], "text/plain"⟩ "0.0.0.0" 6565 "TS"
        ⟨"HEAD", "/", [], "c", []⟩ = [Effect.sendError 501]
      ∧ (handle ⟨[79, 75], "text/plain"⟩ "0.0.0.0" 6565 "TS"
          ⟨"HEAD", "/", [], "c", []⟩).countP Effect.isLogBlock = 0 := by
  constructor
  · rfl
  · rfl

/-- C7 (amended): for every request dispatched to the shared handler
(method among the six aliased ones) exactly one transcript block is
appended to the log sink, it is the very first effect, and everything
after it — in particular every byte written to the client — comes
strictly later; a parsed request with an unhandled method instead gets an
error response and no transcript block (see the counterexample). -/
theorem c7_log_before_response (srv : LogServer) (serverName : String) (serverPort : Nat)
    (ts : String) (req : Request) (h : req.method ∈ handledMethods) :
    (handle srv serverName serverPort ts req).countP Effect.isLogBlock = 1
      ∧ ((handle srv serverName serverPort ts req).head?.map Effect.isLogBlock
          = some true)
      ∧ (handle srv serverName serverPort ts req).tail.countP Effect.isLogBlock = 0
      ∧ (handle srv serverName serverPort ts req).tail.countP Effect.isClientWrite
          = (handle srv serverName serverPort ts req).tail.length := by
  rw [handle, if_pos h]
  exact ⟨rfl, rfl, rfl, rfl⟩

/-- Witness for C7 on a concrete POST request. -/
theorem c7_log_before_response_witness :
    (handle ⟨[79], "t"⟩ "0.0.0.0" 6565 "TS"
        ⟨"POST", "/s", [], "c", [1, 2]⟩).countP Effect.isLogBlock = 1
      ∧ ((handle ⟨[79], "t"⟩ "0.0.0.0" 6565 "TS"
          ⟨"POST", "/s", [], "c", [1, 2]⟩).head?.map Effect.isLogBlock = some true)
      ∧ (handle ⟨[79], "t"⟩ "0.0.0.0" 6565 "TS"
          ⟨"POST", "/s", [], "c", [1, 2]⟩).tail.countP Effect.isLogBlock = 0
      ∧ (handle ⟨[79], "t"⟩ "0.0.0.0" 6565 "TS"
          ⟨"POST", "/s", [], "c", [1, 2]⟩).tail.countP Effect.isClientWrite
          = (handle ⟨[79], "t"⟩ "0.0.0.0" 6565 "TS"
              ⟨"POST", "/s", [], "c", [1, 2]⟩).tail.length :=
  c7_log_before_response ⟨[79], "t"⟩ "0.0.0.0" 6565 "TS"
    ⟨"POST", "/s", [], "c", [1, 2]⟩ (by decide)

/-- Counterexample to C7 as stated: a successfully parsed `TRACE` request
gets a response written (the 501 error) but zero transcript blocks. -/
theorem c7_counterexample :
    handle ⟨[79], "t"⟩ "0.0.0.0" 6565 "TS" ⟨"TRACE", "/", [], "c", []⟩
        = [Effect.sendError 501]
      ∧ (handle ⟨[79], "t"⟩ "0.0.0.0" 6565 "TS"
          ⟨"TRACE", "/", [], "c", []⟩).countP Effect.isLogBlock = 0
      ∧ (handle ⟨[79], "t"⟩ "0.0.0.0" 6565 "TS"
          ⟨"TRACE", "/", [], "c", []⟩).countP Effect.isClientWrite = 1 := by
  exact ⟨rfl, rfl, rfl⟩

end LogSrv
